import Mathlib

/-!
Verification of the client-side export pipeline of the AI Fashion Studio
application (src/src/App.tsx).  The repository contains two variants of the
App component separated by a document separator: the first defines
`loadInitialSettings`, `getCanvasFilter` and `handleFinalDownload` (geometry
resolver with the full preset set, center-crop calculator, encoder); the
second defines `handleDownload` (geometry resolver for custom/hd/4k with
aspect-ratio-locked derivation, no cropping) and `initialExportSettings`.

JavaScript numbers are modelled as rationals (ℚ); `Math.round`, truthiness
of optional numeric fields and `a || b` fallbacks are modelled explicitly.
-/

namespace AIFashion

/-- JS truthiness of an optional numeric field: `undefined`/`null` and `0`
are falsy, every other number is truthy. -/
def jsTruthy : Option ℚ → Bool
  | none => false
  | some x => x ≠ 0

/-- JS `a || b` where `a` is an optional numeric field and `b` a number:
yields `a`'s value when it is truthy, otherwise `b`. -/
def jsOr (a : Option ℚ) (b : ℚ) : ℚ :=
  match a with
  | none => b
  | some x => if x = 0 then b else x

/-- JS `Math.round` for the non-negative values produced by the pipeline:
round half up, i.e. `⌊x + 1/2⌋`. -/
def jsRound (q : ℚ) : ℤ := ⌊q + 1 / 2⌋

/-- The seven resolution presets of `ResolutionSettings.preset`. -/
inductive ResolutionPreset
  | original
  | hd
  | uhd4k
  | square
  | portrait
  | landscape
  | custom
deriving DecidableEq, Repr

/-- `ResolutionSettings` from components/ExportModal: preset plus optional
custom dimensions and the aspect-ratio lock flag. -/
structure ResolutionSettings where
  preset : ResolutionPreset
  width : Option ℚ
  height : Option ℚ
  aspectRatioLocked : Bool
deriving DecidableEq, Repr

/-- `ColorGradingSettings` from components/ExportModal.  The UI produces
integer percent values; JS renders such integers in plain decimal when
interpolated into the filter template string. -/
structure ColorGradingSettings where
  preset : String
  saturation : ℕ
  contrast : ℕ
  brightness : ℕ
  warmth : ℕ
deriving DecidableEq, Repr

/-- `ExportSettings` (App.tsx lines 12-17).  `format` is the string tag
`"png"` or `"jpeg"`; `quality` is a JS number. -/
structure ExportSettings where
  format : String
  quality : ℚ
  colorGrading : ColorGradingSettings
  resolution : ResolutionSettings
deriving DecidableEq, Repr

/-- Output of the geometry-resolution switch in `handleFinalDownload`:
target dimensions (still fractional) and whether the crop path is taken. -/
structure ResolvedGeometry where
  targetWidth : ℚ
  targetHeight : ℚ
  requiresCropping : Bool
deriving DecidableEq, Repr

/-- Geometry resolver of `handleFinalDownload` (App.tsx lines 179-232):
the `switch (exportSettings.resolution.preset)` statement.  `targetWidth`
and `targetHeight` start as the source dimensions and `requiresCropping`
as `false`; each case updates them as in the source. -/
def resolveFinal (originalWidth originalHeight : ℚ)
    (res : ResolutionSettings) : ResolvedGeometry :=
  let originalAspectRatio := originalWidth / originalHeight
  match res.preset with
  | .hd =>
      if originalAspectRatio ≥ 1 then
        ⟨1920, 1920 / originalAspectRatio, false⟩
      else
        ⟨1920 * originalAspectRatio, 1920, false⟩
  | .uhd4k =>
      if originalAspectRatio ≥ 1 then
        ⟨3840, 3840 / originalAspectRatio, false⟩
      else
        ⟨3840 * originalAspectRatio, 3840, false⟩
  | .square => ⟨1080, 1080, true⟩
  | .portrait => ⟨1080, 1920, true⟩
  | .landscape => ⟨1920, 1080, true⟩
  | .custom =>
      let targetWidth := jsOr res.width originalWidth
      let targetHeight := jsOr res.height originalHeight
      ⟨targetWidth, targetHeight,
        |targetWidth / targetHeight - originalAspectRatio| > 1 / 100⟩
  | .original => ⟨originalWidth, originalHeight, false⟩

/-- Geometry resolver of `handleDownload` (App.tsx lines 449-469, second
App variant): handles `custom` (with aspect-ratio-locked derivation of the
missing dimension), `hd` and `4k`; every other preset leaves the source
dimensions.  Returns (targetWidth, targetHeight); this variant never
crops. -/
def resolveDownload (w h : ℚ) (res : ResolutionSettings) : ℚ × ℚ :=
  let sourceAspectRatio := w / h
  match res.preset with
  | .custom =>
      if jsTruthy res.width then
        let tw := jsOr res.width w
        (tw, if res.aspectRatioLocked then tw / sourceAspectRatio
             else jsOr res.height h)
      else if jsTruthy res.height then
        let th := jsOr res.height h
        (if res.aspectRatioLocked then th * sourceAspectRatio
         else jsOr res.width w, th)
      else (w, h)
  | .hd =>
      (if sourceAspectRatio ≥ 1 then 1920 else 1920 * sourceAspectRatio,
       if sourceAspectRatio ≥ 1 then 1920 / sourceAspectRatio else 1920)
  | .uhd4k =>
      (if sourceAspectRatio ≥ 1 then 3840 else 3840 * sourceAspectRatio,
       if sourceAspectRatio ≥ 1 then 3840 / sourceAspectRatio else 3840)
  | _ => (w, h)

/-- Center-crop rectangle computation of `handleFinalDownload` (App.tsx
lines 240-253), in source coordinates. -/
structure CropRect where
  sx : ℚ
  sy : ℚ
  sWidth : ℚ
  sHeight : ℚ
deriving DecidableEq, Repr

/-- Crop calculator of `handleFinalDownload` (App.tsx lines 240-253):
compares the source aspect ratio with the (already rounded) canvas aspect
ratio and keeps full height (cropping the sides) or full width (cropping
top/bottom), centered. -/
def computeCropRect (originalWidth originalHeight canvasWidth canvasHeight : ℚ) :
    CropRect :=
  let originalAspectRatio := originalWidth / originalHeight
  let canvasAspectRatio := canvasWidth / canvasHeight
  if originalAspectRatio > canvasAspectRatio then
    let sWidth := originalHeight * canvasAspectRatio
    ⟨(originalWidth - sWidth) / 2, 0, sWidth, originalHeight⟩
  else if originalAspectRatio < canvasAspectRatio then
    let sHeight := originalWidth / canvasAspectRatio
    ⟨0, (originalHeight - sHeight) / 2, originalWidth, sHeight⟩
  else
    ⟨0, 0, originalWidth, originalHeight⟩

/-- JS `String.prototype.trim`: remove whitespace characters from both ends
of the string. -/
def jsTrim (s : String) : String :=
  ⟨((s.data.dropWhile Char.isWhitespace).reverse.dropWhile
      Char.isWhitespace).reverse⟩

/-- `getCanvasFilter` (App.tsx lines 72-82): builds the canvas filter string
by appending one clause per grading field in the fixed order saturate,
contrast, brightness, sepia (warmth), then trims the trailing space. -/
def getCanvasFilter (settings : ColorGradingSettings) : String :=
  let filterString :=
    "" ++ ("saturate(" ++ toString settings.saturation ++ "%) ") ++
    ("contrast(" ++ toString settings.contrast ++ "%) ") ++
    ("brightness(" ++ toString settings.brightness ++ "%) ") ++
    ("sepia(" ++ toString settings.warmth ++ "%)")
  jsTrim filterString

/-- Whether the string `s` ends in the string `suf` (character-wise); used
to state that a produced filename carries the extension of the requested
format. -/
def endsIn (s suf : String) : Bool := suf.data.isSuffixOf s.data

/-- One call of `canvas.toDataURL`: the MIME type and the optional codec
quality argument. -/
structure EncodeCall where
  mime : String
  quality : Option ℚ
deriving DecidableEq, Repr

/-- Encoding and filename selection of `handleFinalDownload` (App.tsx lines
259-269): `png` encodes without a quality argument, otherwise `jpeg` with
`quality / 100`; the filename is fixed per branch. -/
def encodeFinal (settings : ExportSettings) : EncodeCall × String :=
  if settings.format = "png" then
    (⟨"image/png", none⟩, "ai-fashion-photoshoot-enhanced.png")
  else
    (⟨"image/jpeg", some (settings.quality / 100)⟩,
     "ai-fashion-photoshoot-enhanced.jpeg")

/-- Encoding and filename selection of `handleDownload` (App.tsx lines
479-481, second App variant): MIME `image/<format>`, quality argument only
for `jpeg`, filename `ai-fashion-studio.<format>`. -/
def encodeDownload (settings : ExportSettings) : EncodeCall × String :=
  (⟨"image/" ++ settings.format,
    if settings.format = "jpeg" then some (settings.quality / 100) else none⟩,
   "ai-fashion-studio." ++ settings.format)

/-- Failures of the `handleFinalDownload` image-onload callback: the only
check before drawing is that a 2d context was obtained. -/
inductive ExportError
  | surfaceUnavailable
deriving DecidableEq, Repr

/-- The observable outcome of one export: canvas dimensions actually set,
the filter applied, the crop rectangle sampled (if the crop path was
taken), and the encode call with its filename. -/
structure ExportResult where
  canvasWidth : ℤ
  canvasHeight : ℤ
  filter : String
  cropRect : Option CropRect
  mime : String
  encodeQuality : Option ℚ
  filename : String
deriving DecidableEq, Repr

/-- The `img.onload` body of `handleFinalDownload` (App.tsx lines 170-273):
obtain a context (or fail), resolve geometry, round the target dimensions
into the canvas, set the filter, compute the crop rectangle when cropping
is required, draw, and encode.  The source contains no dimension check:
the rounded values are assigned to the canvas as-is. -/
def handleFinalDownloadOnLoad (ctxAvailable : Bool) (imgWidth imgHeight : ℚ)
    (settings : ExportSettings) : Except ExportError ExportResult :=
  if ctxAvailable then
    let g := resolveFinal imgWidth imgHeight settings.resolution
    let canvasWidth := jsRound g.targetWidth
    let canvasHeight := jsRound g.targetHeight
    let filter := getCanvasFilter settings.colorGrading
    let crop :=
      if g.requiresCropping then
        some (computeCropRect imgWidth imgHeight (canvasWidth : ℚ)
          (canvasHeight : ℚ))
      else none
    let ec := encodeFinal settings
    .ok ⟨canvasWidth, canvasHeight, filter, crop, ec.1.mime, ec.1.quality,
      ec.2⟩
  else .error .surfaceUnavailable

/-- A JSON value found in the `quality` field of a persisted record: a
number, or a value of some other runtime type (the code checks it with
`typeof quality === "number"`). -/
inductive JsQuality
  | num (q : ℚ)
  | notNum
deriving DecidableEq, Repr

/-- The `colorGrading` sub-record of a parsed persisted settings record;
every field may be absent. -/
structure ParsedGrading where
  preset : Option String
  saturation : Option ℕ
  contrast : Option ℕ
  brightness : Option ℕ
  warmth : Option ℕ
deriving DecidableEq, Repr

/-- The `resolution` sub-record of a parsed persisted settings record;
every field may be absent (outer `Option`), and `width`/`height` may also
be present with value `null` (inner `Option`). -/
structure ParsedResolution where
  preset : Option ResolutionPreset
  width : Option (Option ℚ)
  height : Option (Option ℚ)
  aspectRatioLocked : Option Bool
deriving DecidableEq, Repr

/-- A record obtained from `JSON.parse` of the persisted settings string;
every field may be absent. -/
structure ParsedSettings where
  format : Option String
  quality : Option JsQuality
  colorGrading : Option ParsedGrading
  resolution : Option ParsedResolution
deriving DecidableEq, Repr

/-- The persisted state of the settings key in localStorage: no record, a
string `JSON.parse` throws on, or a string parsing to a record. -/
inductive PersistedState
  | missing
  | malformed
  | record (p : ParsedSettings)
deriving DecidableEq, Repr

/-- `defaultSettings` of `loadInitialSettings` (App.tsx lines 20-36). -/
def defaultSettings : ExportSettings where
  format := "jpeg"
  quality := 92
  colorGrading := ⟨"none", 100, 100, 100, 0⟩
  resolution := ⟨.original, none, none, true⟩

/-- The `colorGrading` part of the spread merge
`{...defaults.colorGrading, ...(parsed.colorGrading || {})}` (App.tsx
lines 50-53): a present field overrides the default, an absent one keeps
it. -/
def mergeGrading : Option ParsedGrading → ColorGradingSettings
  | none => defaultSettings.colorGrading
  | some g =>
      ⟨g.preset.getD "none", g.saturation.getD 100, g.contrast.getD 100,
       g.brightness.getD 100, g.warmth.getD 0⟩

/-- The `resolution` part of the spread merge (App.tsx lines 54-57). -/
def mergeResolution : Option ParsedResolution → ResolutionSettings
  | none => defaultSettings.resolution
  | some r =>
      ⟨r.preset.getD .original, r.width.getD none, r.height.getD none,
       r.aspectRatioLocked.getD true⟩

/-- `loadInitialSettings` (App.tsx lines 19-70): return defaults when the
record is missing or unparsable; otherwise spread-merge the parsed record
over the defaults and accept the merge only when the merged `format` is
`png`/`jpeg` and the merged `quality` is a number in [10, 100]; otherwise
return the full defaults. -/
def loadInitialSettings : PersistedState → ExportSettings
  | .missing => defaultSettings
  | .malformed => defaultSettings
  | .record p =>
      let mergedFormat := p.format.getD defaultSettings.format
      let mergedQuality := p.quality.getD (.num defaultSettings.quality)
      if mergedFormat = "png" ∨ mergedFormat = "jpeg" then
        match mergedQuality with
        | .num q =>
            if 10 ≤ q ∧ q ≤ 100 then
              ⟨mergedFormat, q, mergeGrading p.colorGrading,
               mergeResolution p.resolution⟩
            else defaultSettings
        | .notNum => defaultSettings
      else defaultSettings

theorem jsTrim_eq_self {s : String} {c d : Char} {l : List Char}
    (h : s.data = c :: (l ++ [d]))
    (hc : c.isWhitespace = false) (hd : d.isWhitespace = false) :
    jsTrim s = s := by
  cases s with
  | mk data =>
    simp only at h
    simp only [jsTrim]
    subst h
    congr 1
    rw [List.dropWhile_cons, hc]
    simp only [Bool.false_eq_true, if_false, List.reverse_cons,
      List.reverse_append, List.reverse_nil, List.nil_append,
      List.singleton_append, List.cons_append]
    rw [List.dropWhile_cons, hd]
    simp

theorem jsTrim_filter_shape (s₁ s₂ s₃ s₄ : String) :
    jsTrim ("" ++ ("saturate(" ++ s₁ ++ "%) ") ++ ("contrast(" ++ s₂ ++ "%) ") ++
        ("brightness(" ++ s₃ ++ "%) ") ++ ("sepia(" ++ s₄ ++ "%)")) =
      "" ++ ("saturate(" ++ s₁ ++ "%) ") ++ ("contrast(" ++ s₂ ++ "%) ") ++
        ("brightness(" ++ s₃ ++ "%) ") ++ ("sepia(" ++ s₄ ++ "%)") := by
  refine jsTrim_eq_self (c := 's') (d := ')')
    (l := "aturate(".data ++ s₁.data ++ "%) contrast(".data ++ s₂.data ++
      "%) brightness(".data ++ s₃.data ++ "%) sepia(".data ++ s₄.data ++ ['%'])
    ?_ rfl rfl
  simp [String.data_append, List.append_assoc]

/-- C7: for every ColorGradingSettings record, the derived canvas filter
string is exactly `saturate(S%) contrast(C%) brightness(B%) sepia(W%)`,
the four grading fields substituted in that fixed order. -/
theorem getCanvasFilter_order (g : ColorGradingSettings) :
    getCanvasFilter g =
      "saturate(" ++ toString g.saturation ++ "%) contrast(" ++
      toString g.contrast ++ "%) brightness(" ++ toString g.brightness ++
      "%) sepia(" ++ toString g.warmth ++ "%)" := by
  show jsTrim _ = _
  rw [jsTrim_filter_shape]
  apply String.ext
  simp [String.data_append, List.append_assoc]

/-- C4: for every source image with positive dimensions, the presets
square, portrait and landscape always set requiresCropping to true, and
the resolved target dimensions are exactly 1080×1080, 1080×1920 and
1920×1080 respectively. -/
theorem fixed_presets_always_crop (W H : ℚ) (res : ResolutionSettings)
    (hW : 0 < W) (hH : 0 < H) :
    (res.preset = .square → resolveFinal W H res = ⟨1080, 1080, true⟩) ∧
    (res.preset = .portrait → resolveFinal W H res = ⟨1080, 1920, true⟩) ∧
    (res.preset = .landscape → resolveFinal W H res = ⟨1920, 1080, true⟩) := by
  refine ⟨?_, ?_, ?_⟩ <;> intro hp <;> simp [resolveFinal, hp]

theorem fixed_presets_always_crop_witness :
    resolveFinal 1080 1080 ⟨.square, none, none, true⟩ = ⟨1080, 1080, true⟩ :=
  (fixed_presets_always_crop 1080 1080 ⟨.square, none, none, true⟩
    (by norm_num) (by norm_num)).1 rfl

/-- C2 counterexample: for source 10000×2 with preset hd the resolved
target height rounds to 0, yet the pipeline does not reject the call: it
produces an output whose canvas height is 0 (there is no InvalidDimension
check in the code). -/
theorem invalid_dimension_counterexample :
    jsRound (resolveFinal 10000 2 ⟨.hd, none, none, true⟩).targetHeight = 0 ∧
    (handleFinalDownloadOnLoad true 10000 2
        ⟨"jpeg", 92, ⟨"none", 100, 100, 100, 0⟩, ⟨.hd, none, none, true⟩⟩).map
      ExportResult.canvasHeight = .ok 0 := by
  have hres : resolveFinal 10000 2 ⟨.hd, none, none, true⟩ =
      ⟨1920, 1920 / 5000, false⟩ := by
    simp only [resolveFinal]
    norm_num
  have hround : jsRound (1920 / 5000 : ℚ) = 0 := by norm_num [jsRound]
  refine ⟨by rw [hres]; exact hround, ?_⟩
  simp only [handleFinalDownloadOnLoad, if_true, hres, Except.map]
  simp [hround]

/-- C2 amended: the pipeline performs no dimension validation at all — for
every source and settings, whenever the drawing context is available the
onload body runs to completion and produces an output (it never rejects on
the resolved dimensions, even when one of them rounds to 0). -/
theorem export_never_rejects_dimensions (W H : ℚ) (s : ExportSettings) :
    (handleFinalDownloadOnLoad true W H s).isOk = true := by
  simp [handleFinalDownloadOnLoad, Except.isOk, Except.toBool]

/-- C5: for every source with positive dimensions and preset hd (long edge
1920) or 4k (long edge 3840): if the source aspect ratio is ≥ 1 the target
is (L, L / AR), otherwise (L * AR, L); requiresCropping is false; the
resolved (pre-rounding) target preserves the source aspect ratio within
1e-6; the larger target dimension equals the preset's long edge; and the
second App variant's resolver agrees. -/
theorem hd_4k_preserve_aspect (W H : ℚ) (res : ResolutionSettings)
    (hW : 0 < W) (hH : 0 < H)
    (hp : res.preset = .hd ∨ res.preset = .uhd4k) :
    (resolveFinal W H res).requiresCropping = false ∧
    ((W / H ≥ 1 ∧ res.preset = .hd →
        resolveFinal W H res = ⟨1920, 1920 / (W / H), false⟩) ∧
     (W / H < 1 ∧ res.preset = .hd →
        resolveFinal W H res = ⟨1920 * (W / H), 1920, false⟩) ∧
     (W / H ≥ 1 ∧ res.preset = .uhd4k →
        resolveFinal W H res = ⟨3840, 3840 / (W / H), false⟩) ∧
     (W / H < 1 ∧ res.preset = .uhd4k →
        resolveFinal W H res = ⟨3840 * (W / H), 3840, false⟩)) ∧
    |(resolveFinal W H res).targetWidth / (resolveFinal W H res).targetHeight
        - W / H| ≤ 1 / 1000000 ∧
    max (resolveFinal W H res).targetWidth (resolveFinal W H res).targetHeight
      = (if res.preset = .hd then 1920 else 3840) ∧
    resolveDownload W H res =
      ((resolveFinal W H res).targetWidth, (resolveFinal W H res).targetHeight) := by
  have hAR : 0 < W / H := div_pos hW hH
  have hARne : W / H ≠ 0 := ne_of_gt hAR
  have key : ∀ L : ℚ, 0 < L →
      (W / H ≥ 1 →
        |L / (L / (W / H)) - W / H| ≤ 1 / 1000000 ∧ max L (L / (W / H)) = L) ∧
      (W / H < 1 →
        |L * (W / H) / L - W / H| ≤ 1 / 1000000 ∧ max (L * (W / H)) L = L) := by
    intro L hL
    have hLne : L ≠ 0 := ne_of_gt hL
    constructor
    · intro h1
      have he : L / (L / (W / H)) = W / H := by
        field_simp
        ring
      rw [he, sub_self, abs_zero]
      refine ⟨by norm_num, max_eq_left ?_⟩
      rw [div_le_iff₀ hAR]
      nlinarith
    · intro h1
      have he : L * (W / H) / L = W / H := by
        rw [mul_comm, mul_div_assoc, div_self hLne, mul_one]
      rw [he, sub_self, abs_zero]
      refine ⟨by norm_num, max_eq_right ?_⟩
      nlinarith
  rcases hp with hp | hp <;> rcases le_or_lt 1 (W / H) with h1 | h1
  · have hres : resolveFinal W H res = ⟨1920, 1920 / (W / H), false⟩ := by
      simp only [resolveFinal, hp, ge_iff_le, h1, if_true]
    have hresD : resolveDownload W H res = (1920, 1920 / (W / H)) := by
      simp only [resolveDownload, hp, ge_iff_le, h1, if_true]
    obtain ⟨habs, hmax⟩ := (key 1920 (by norm_num)).1 h1
    rw [hres, hresD]
    refine ⟨rfl, ⟨fun _ => rfl, fun h => absurd h.1 (not_lt.mpr h1), ?_, ?_⟩,
      habs, ?_, rfl⟩
    · rintro ⟨-, h⟩
      rw [hp] at h
      exact absurd h (by decide)
    · rintro ⟨-, h⟩
      rw [hp] at h
      exact absurd h (by decide)
    · rw [if_pos hp]
      exact hmax
  · have hres : resolveFinal W H res = ⟨1920 * (W / H), 1920, false⟩ := by
      simp only [resolveFinal, hp, ge_iff_le, not_le.mpr h1, if_false]
    have hresD : resolveDownload W H res = (1920 * (W / H), 1920) := by
      simp only [resolveDownload, hp, ge_iff_le, not_le.mpr h1, if_false]
    obtain ⟨habs, hmax⟩ := (key 1920 (by norm_num)).2 h1
    rw [hres, hresD]
    refine ⟨rfl, ⟨fun h => absurd h.1 (not_le.mpr h1), fun _ => rfl, ?_, ?_⟩,
      habs, ?_, rfl⟩
    · rintro ⟨-, h⟩
      rw [hp] at h
      exact absurd h (by decide)
    · rintro ⟨-, h⟩
      rw [hp] at h
      exact absurd h (by decide)
    · rw [if_pos hp]
      exact hmax
  · have hres : resolveFinal W H res = ⟨3840, 3840 / (W / H), false⟩ := by
      simp only [resolveFinal, hp, ge_iff_le, h1, if_true]
    have hresD : resolveDownload W H res = (3840, 3840 / (W / H)) := by
      simp only [resolveDownload, hp, ge_iff_le, h1, if_true]
    obtain ⟨habs, hmax⟩ := (key 3840 (by norm_num)).1 h1
    rw [hres, hresD]
    refine ⟨rfl, ⟨?_, ?_, fun _ => rfl, fun h => absurd h.1 (not_lt.mpr h1)⟩,
      habs, ?_, rfl⟩
    · rintro ⟨-, h⟩
      rw [hp] at h
      exact absurd h (by decide)
    · rintro ⟨-, h⟩
      rw [hp] at h
      exact absurd h (by decide)
    · rw [if_neg (by rw [hp]; decide)]
      exact hmax
  · have hres : resolveFinal W H res = ⟨3840 * (W / H), 3840, false⟩ := by
      simp only [resolveFinal, hp, ge_iff_le, not_le.mpr h1, if_false]
    have hresD : resolveDownload W H res = (3840 * (W / H), 3840) := by
      simp only [resolveDownload, hp, ge_iff_le, not_le.mpr h1, if_false]
    obtain ⟨habs, hmax⟩ := (key 3840 (by norm_num)).2 h1
    rw [hres, hresD]
    refine ⟨rfl, ⟨?_, ?_, fun h => absurd h.1 (not_le.mpr h1), fun _ => rfl⟩,
      habs, ?_, rfl⟩
    · rintro ⟨-, h⟩
      rw [hp] at h
      exact absurd h (by decide)
    · rintro ⟨-, h⟩
      rw [hp] at h
      exact absurd h (by decide)
    · rw [if_neg (by rw [hp]; decide)]
      exact hmax

theorem hd_4k_preserve_aspect_witness :
    resolveFinal 1000 2000 ⟨.hd, none, none, true⟩ = ⟨960, 1920, false⟩ ∧
    resolveDownload 1000 2000 ⟨.hd, none, none, true⟩ = (960, 1920) := by
  obtain ⟨hcrop, ⟨-, himp, -, -⟩, -, -, hD⟩ :=
    hd_4k_preserve_aspect 1000 2000 ⟨.hd, none, none, true⟩
      (by norm_num) (by norm_num) (Or.inl rfl)
  have hres := himp ⟨by norm_num, rfl⟩
  have h960 : (1920 : ℚ) * (1000 / 2000) = 960 := by norm_num
  constructor
  · rw [hres, h960]
  · rw [hD, hres, h960]

/-- C6: the crop calculator keeps full height and crops the sides when the
source is relatively wider than the canvas, keeps full width and crops
top/bottom when it is relatively taller, uses the full source when the
ratios agree, and in every case the rectangle is centered:
sx = (sourceWidth − sWidth)/2 and sy = (sourceHeight − sHeight)/2. -/
theorem computeCropRect_centered (W H tW tH : ℚ)
    (hW : 0 < W) (hH : 0 < H) (htW : 0 < tW) (htH : 0 < tH) :
    (W / H > tW / tH →
      computeCropRect W H tW tH =
        ⟨(W - H * (tW / tH)) / 2, 0, H * (tW / tH), H⟩) ∧
    (W / H < tW / tH →
      computeCropRect W H tW tH =
        ⟨0, (H - W / (tW / tH)) / 2, W, W / (tW / tH)⟩) ∧
    (W / H = tW / tH → computeCropRect W H tW tH = ⟨0, 0, W, H⟩) ∧
    (computeCropRect W H tW tH).sx =
      (W - (computeCropRect W H tW tH).sWidth) / 2 ∧
    (computeCropRect W H tW tH).sy =
      (H - (computeCropRect W H tW tH).sHeight) / 2 := by
  rcases lt_trichotomy (W / H) (tW / tH) with hlt | heq | hgt
  · have hres : computeCropRect W H tW tH =
        ⟨0, (H - W / (tW / tH)) / 2, W, W / (tW / tH)⟩ := by
      simp only [computeCropRect]
      rw [if_neg (not_lt.mpr hlt.le), if_pos hlt]
    refine ⟨fun h => absurd hlt (not_lt.mpr h.le), fun _ => hres,
      fun h => absurd h (ne_of_lt hlt), ?_, ?_⟩
    · rw [hres]
      simp
    · rw [hres]
  · have hres : computeCropRect W H tW tH = ⟨0, 0, W, H⟩ := by
      simp only [computeCropRect]
      rw [if_neg (not_lt.mpr heq.le), if_neg (not_lt.mpr heq.ge)]
    refine ⟨fun h => absurd heq (ne_of_gt h), fun h => absurd heq (ne_of_lt h),
      fun _ => hres, ?_, ?_⟩
    · rw [hres]
      simp
    · rw [hres]
      simp
  · have hres : computeCropRect W H tW tH =
        ⟨(W - H * (tW / tH)) / 2, 0, H * (tW / tH), H⟩ := by
      simp only [computeCropRect]
      rw [if_pos hgt]
    refine ⟨fun _ => hres, fun h => absurd hgt (not_lt.mpr h.le),
      fun h => absurd h (ne_of_gt hgt), ?_, ?_⟩
    · rw [hres]
    · rw [hres]
      simp

theorem computeCropRect_centered_witness :
    computeCropRect 4000 3000 1080 1080 = ⟨500, 0, 3000, 3000⟩ := by
  have h := (computeCropRect_centered 4000 3000 1080 1080 (by norm_num)
    (by norm_num) (by norm_num) (by norm_num)).1 (by norm_num)
  rw [h]
  norm_num

/-- C10: for positive source and canvas dimensions, the crop rectangle
always lies entirely within the source image, with positive width and
height, so drawing never samples outside the source bounds. -/
theorem crop_rect_within_source (W H tW tH : ℚ)
    (hW : 0 < W) (hH : 0 < H) (htW : 0 < tW) (htH : 0 < tH) :
    0 ≤ (computeCropRect W H tW tH).sx ∧
    0 ≤ (computeCropRect W H tW tH).sy ∧
    (computeCropRect W H tW tH).sx + (computeCropRect W H tW tH).sWidth ≤ W ∧
    (computeCropRect W H tW tH).sy + (computeCropRect W H tW tH).sHeight ≤ H ∧
    0 < (computeCropRect W H tW tH).sWidth ∧
    0 < (computeCropRect W H tW tH).sHeight := by
  have hAR : 0 < W / H := div_pos hW hH
  have htAR : 0 < tW / tH := div_pos htW htH
  have hWH : H * (W / H) = W := by field_simp
  rcases lt_trichotomy (W / H) (tW / tH) with hlt | heq | hgt
  · have hres : computeCropRect W H tW tH =
        ⟨0, (H - W / (tW / tH)) / 2, W, W / (tW / tH)⟩ := by
      simp only [computeCropRect]
      rw [if_neg (not_lt.mpr hlt.le), if_pos hlt]
    have hsH : W / (tW / tH) ≤ H := by
      rw [div_le_iff₀ htAR]
      calc W = H * (W / H) := hWH.symm
        _ ≤ H * (tW / tH) := by nlinarith
    have hsHpos : 0 < W / (tW / tH) := div_pos hW htAR
    rw [hres]
    exact ⟨le_refl 0, by linarith, by linarith, by linarith, hW, hsHpos⟩
  · have hres : computeCropRect W H tW tH = ⟨0, 0, W, H⟩ := by
      simp only [computeCropRect]
      rw [if_neg (not_lt.mpr heq.le), if_neg (not_lt.mpr heq.ge)]
    rw [hres]
    dsimp only
    exact ⟨le_refl 0, le_refl 0, by linarith, by linarith, hW, hH⟩
  · have hres : computeCropRect W H tW tH =
        ⟨(W - H * (tW / tH)) / 2, 0, H * (tW / tH), H⟩ := by
      simp only [computeCropRect]
      rw [if_pos hgt]
    have hsW : H * (tW / tH) ≤ W := by
      calc H * (tW / tH) ≤ H * (W / H) := by nlinarith
        _ = W := hWH
    have hsWpos : 0 < H * (tW / tH) := mul_pos hH htAR
    rw [hres]
    exact ⟨by linarith, le_refl 0, by linarith, by linarith, hsWpos, hH⟩

theorem crop_rect_within_source_witness :
    (0 ≤ (computeCropRect 1000 2000 1080 1920).sx ∧
      0 ≤ (computeCropRect 1000 2000 1080 1920).sy ∧
      (computeCropRect 1000 2000 1080 1920).sx +
        (computeCropRect 1000 2000 1080 1920).sWidth ≤ 1000 ∧
      (computeCropRect 1000 2000 1080 1920).sy +
        (computeCropRect 1000 2000 1080 1920).sHeight ≤ 2000 ∧
      0 < (computeCropRect 1000 2000 1080 1920).sWidth ∧
      0 < (computeCropRect 1000 2000 1080 1920).sHeight) :=
  crop_rect_within_source 1000 2000 1080 1920 (by norm_num) (by norm_num)
    (by norm_num) (by norm_num)

theorem load_format_invalid (p : ParsedSettings) (f : String)
    (hf : p.format = some f) (h1 : f ≠ "png") (h2 : f ≠ "jpeg") :
    loadInitialSettings (.record p) = defaultSettings := by
  simp [loadInitialSettings, hf, h1, h2]

theorem load_quality_out_of_range (p : ParsedSettings) (q : ℚ)
    (hq : p.quality = some (.num q)) (hout : q < 10 ∨ 100 < q) :
    loadInitialSettings (.record p) = defaultSettings := by
  have hnot : ¬(10 ≤ q ∧ q ≤ 100) := by
    rintro ⟨ha, hb⟩
    rcases hout with h | h <;> linarith
  simp only [loadInitialSettings, hq, Option.getD_some]
  rw [if_neg hnot]
  split <;> rfl

theorem load_quality_not_num (p : ParsedSettings)
    (hq : p.quality = some .notNum) :
    loadInitialSettings (.record p) = defaultSettings := by
  simp only [loadInitialSettings, hq, Option.getD_some]
  split <;> rfl

theorem load_format_quality_ok (st : PersistedState) :
    ((loadInitialSettings st).format = "png" ∨
      (loadInitialSettings st).format = "jpeg") ∧
    10 ≤ (loadInitialSettings st).quality ∧
    (loadInitialSettings st).quality ≤ 100 := by
  have hdef : (defaultSettings.format = "png" ∨ defaultSettings.format = "jpeg") ∧
      10 ≤ defaultSettings.quality ∧ defaultSettings.quality ≤ 100 :=
    ⟨Or.inr rfl, by norm_num [defaultSettings], by norm_num [defaultSettings]⟩
  cases st with
  | missing => exact hdef
  | malformed => exact hdef
  | record p =>
      simp only [loadInitialSettings]
      split
      · rename_i hfmt
        split
        · rename_i q hq
          split
          · rename_i hrange
            exact ⟨hfmt, hrange.1, hrange.2⟩
          · exact hdef
        · exact hdef
      · exact hdef

/-- C3 counterexample: for the persisted record {format:"bmp", quality:50}
the malformed format does not fall back alone — the whole load falls back
to the defaults and the record's well-formed quality 50 is discarded
(default 92 is returned instead of 50). -/
theorem forgiving_merge_counterexample :
    loadInitialSettings (.record ⟨some "bmp", some (.num 50), none, none⟩) =
      defaultSettings ∧
    (loadInitialSettings
        (.record ⟨some "bmp", some (.num 50), none, none⟩)).quality ≠ 50 := by
  have h : loadInitialSettings
      (.record ⟨some "bmp", some (.num 50), none, none⟩) = defaultSettings := by
    simp [loadInitialSettings]
  refine ⟨h, ?_⟩
  rw [h]
  norm_num [defaultSettings]

/-- C3 amended: missing fields fall back per-field through the defaults
merge, but the merged record is then validated as a whole: a malformed
(non-png/jpeg) format, an out-of-range quality or a non-numeric quality
causes the entire load to fall back to the full defaults, discarding the
record's other well-formed fields. -/
theorem settings_merge_amended (p : ParsedSettings) :
    (p.format = none → p.quality = none →
      loadInitialSettings (.record p) =
        ⟨"jpeg", 92, mergeGrading p.colorGrading, mergeResolution p.resolution⟩) ∧
    (∀ f, p.format = some f → f ≠ "png" → f ≠ "jpeg" →
      loadInitialSettings (.record p) = defaultSettings) ∧
    (∀ q, p.quality = some (.num q) → (q < 10 ∨ 100 < q) →
      loadInitialSettings (.record p) = defaultSettings) ∧
    (p.quality = some .notNum →
      loadInitialSettings (.record p) = defaultSettings) := by
  refine ⟨?_, ?_, ?_, ?_⟩
  · intro hf hq
    simp [loadInitialSettings, hf, hq, defaultSettings]
    norm_num
  · intro f hf h1 h2
    exact load_format_invalid p f hf h1 h2
  · intro q hq hout
    exact load_quality_out_of_range p q hq hout
  · intro hq
    exact load_quality_not_num p hq

theorem settings_merge_amended_witness :
    loadInitialSettings (.record ⟨some "gif", some (.num 120), none, none⟩) =
      defaultSettings :=
  (settings_merge_amended ⟨some "gif", some (.num 120), none, none⟩).2.1 "gif"
    rfl (by decide) (by decide)

/-- C8: settings load returns the hardcoded defaults (format jpeg, quality
92, identity color grading, original resolution, aspectRatioLocked true)
on a missing record, an unparsable record, a persisted format outside
{png, jpeg} or a persisted quality outside [10, 100]; and for every
persisted state the loaded settings satisfy format ∈ {png, jpeg} and
10 ≤ quality ≤ 100, so an out-of-range persisted quality is never passed
through to the encoder. -/
theorem load_validation_invariant :
    loadInitialSettings .missing = defaultSettings ∧
    loadInitialSettings .malformed = defaultSettings ∧
    defaultSettings =
      ⟨"jpeg", 92, ⟨"none", 100, 100, 100, 0⟩, ⟨.original, none, none, true⟩⟩ ∧
    (∀ p f, p.format = some f → f ≠ "png" → f ≠ "jpeg" →
      loadInitialSettings (.record p) = defaultSettings) ∧
    (∀ p q, p.quality = some (.num q) → (q < 10 ∨ 100 < q) →
      loadInitialSettings (.record p) = defaultSettings) ∧
    (∀ st, ((loadInitialSettings st).format = "png" ∨
        (loadInitialSettings st).format = "jpeg") ∧
      10 ≤ (loadInitialSettings st).quality ∧
      (loadInitialSettings st).quality ≤ 100) :=
  ⟨rfl, rfl, rfl, load_format_invalid, load_quality_out_of_range,
    load_format_quality_ok⟩

theorem load_validation_invariant_witness :
    loadInitialSettings (.record ⟨some "webp", none, none, none⟩) =
      defaultSettings ∧
    10 ≤ (loadInitialSettings .missing).quality :=
  ⟨load_validation_invariant.2.2.2.1 ⟨some "webp", none, none, none⟩ "webp"
      rfl (by decide) (by decide),
   (load_validation_invariant.2.2.2.2.2 .missing).2.1⟩

/-- C9: for every export invocation with format jpeg the encoder is called
with quality/100 (mapping [10,100] to [0.10,1.00]) and the filename ends
in .jpeg; with format png no quality argument is passed and the filename
ends in .png — in both App variants the filename extension matches the
requested format. -/
theorem encode_format_quality (s : ExportSettings) :
    (s.format = "jpeg" →
      encodeFinal s = (⟨"image/jpeg", some (s.quality / 100)⟩,
        "ai-fashion-photoshoot-enhanced.jpeg") ∧
      encodeDownload s = (⟨"image/jpeg", some (s.quality / 100)⟩,
        "ai-fashion-studio.jpeg") ∧
      endsIn (encodeFinal s).2 ".jpeg" = true ∧
      endsIn (encodeDownload s).2 ".jpeg" = true ∧
      (10 ≤ s.quality → s.quality ≤ 100 →
        1 / 10 ≤ s.quality / 100 ∧ s.quality / 100 ≤ 1)) ∧
    (s.format = "png" →
      encodeFinal s = (⟨"image/png", none⟩,
        "ai-fashion-photoshoot-enhanced.png") ∧
      encodeDownload s = (⟨"image/png", none⟩, "ai-fashion-studio.png") ∧
      endsIn (encodeFinal s).2 ".png" = true ∧
      endsIn (encodeDownload s).2 ".png" = true) := by
  constructor
  · intro hf
    have h1 : encodeFinal s = (⟨"image/jpeg", some (s.quality / 100)⟩,
        "ai-fashion-photoshoot-enhanced.jpeg") := by
      simp [encodeFinal, hf]
    have h2 : encodeDownload s = (⟨"image/jpeg", some (s.quality / 100)⟩,
        "ai-fashion-studio.jpeg") := by
      simp [encodeDownload, hf]
    refine ⟨h1, h2, ?_, ?_, ?_⟩
    · rw [h1]
      show endsIn "ai-fashion-photoshoot-enhanced.jpeg" ".jpeg" = true
      decide
    · rw [h2]
      show endsIn "ai-fashion-studio.jpeg" ".jpeg" = true
      decide
    · intro h10 h100
      constructor
      · rw [le_div_iff₀ (by norm_num : (0 : ℚ) < 100)]
        linarith
      · rw [div_le_one (by norm_num : (0 : ℚ) < 100)]
        linarith
  · intro hf
    have h1 : encodeFinal s = (⟨"image/png", none⟩,
        "ai-fashion-photoshoot-enhanced.png") := by
      simp [encodeFinal, hf]
    have h2 : encodeDownload s = (⟨"image/png", none⟩,
        "ai-fashion-studio.png") := by
      simp [encodeDownload, hf]
    refine ⟨h1, h2, ?_, ?_⟩
    · rw [h1]
      decide
    · rw [h2]
      decide

theorem encode_format_quality_witness :
    encodeFinal defaultSettings = (⟨"image/jpeg", some (92 / 100)⟩,
      "ai-fashion-photoshoot-enhanced.jpeg") ∧
    endsIn (encodeFinal defaultSettings).2 ".jpeg" = true ∧
    1 / 10 ≤ (92 : ℚ) / 100 ∧ (92 : ℚ) / 100 ≤ 1 := by
  obtain ⟨hj, -⟩ := encode_format_quality defaultSettings
  obtain ⟨h1, h2, h3, h4, h5⟩ := hj rfl
  obtain ⟨h6, h7⟩ := h5 (by norm_num [defaultSettings]) (by norm_num [defaultSettings])
  exact ⟨h1, h3, h6, h7⟩

/-- C1 counterexample: for source 1500×1000 (aspect ratio 1.5) and custom
resolution width=800, height null, aspectRatioLocked=true, the resolver of
handleFinalDownload does not derive the missing height from the aspect
ratio: it falls back to the source height (1000, not round(800/1.5)=533)
and sets requiresCropping=true where the claim predicts false. -/
theorem custom_resolution_counterexample :
    resolveFinal 1500 1000 ⟨.custom, some 800, none, true⟩ =
      ⟨800, 1000, true⟩ ∧
    ¬(jsRound (resolveFinal 1500 1000
          ⟨.custom, some 800, none, true⟩).targetHeight = 533 ∧
      (resolveFinal 1500 1000
          ⟨.custom, some 800, none, true⟩).requiresCropping = false) := by
  have hres : resolveFinal 1500 1000 ⟨.custom, some 800, none, true⟩ =
      ⟨800, 1000, true⟩ := by
    simp only [resolveFinal, jsOr, ResolvedGeometry.mk.injEq]
    refine ⟨by norm_num, by norm_num, ?_⟩
    rw [decide_eq_true_eq, gt_iff_lt, lt_abs]
    norm_num
  refine ⟨hres, ?_⟩
  rw [hres]
  rintro ⟨h533, -⟩
  rw [show jsRound ((⟨800, 1000, true⟩ : ResolvedGeometry).targetHeight) =
    1000 by norm_num [jsRound]] at h533
  exact absurd h533 (by norm_num)

/-- C1 amended: the aspect-ratio-locked derivation lives in handleDownload
(second App variant): with the lock on, the missing dimension is derived
from whichever of width/height is provided (width taking precedence) so
that the source aspect ratio is preserved, and with the lock off and both
given, both are used as-is; for source aspect ratio 1.5 and width 800 it
resolves target height round(800/1.5) = 533.  handleFinalDownload's custom
resolver instead ignores the lock, uses width-or-source and
height-or-source, and sets requiresCropping exactly when the resulting
ratio differs from the source aspect ratio by more than 0.01. -/
theorem custom_resolution_amended (W H : ℚ) (res : ResolutionSettings)
    (hW : 0 < W) (hH : 0 < H) (hp : res.preset = .custom) :
    (∀ w, res.width = some w → w ≠ 0 → res.aspectRatioLocked = true →
      resolveDownload W H res = (w, w / (W / H))) ∧
    (∀ w h, res.width = some w → w ≠ 0 → res.height = some h → h ≠ 0 →
      res.aspectRatioLocked = false → resolveDownload W H res = (w, h)) ∧
    (∀ h, res.width = none → res.height = some h → h ≠ 0 →
      res.aspectRatioLocked = true →
      resolveDownload W H res = (h * (W / H), h)) ∧
    ((resolveFinal W H res).requiresCropping = true ↔
      |jsOr res.width W / jsOr res.height H - W / H| > 1 / 100) ∧
    jsRound ((resolveDownload 1200 800 ⟨.custom, some 800, none, true⟩).2) =
      533 := by
  refine ⟨?_, ?_, ?_, ?_, ?_⟩
  · intro w hw hw0 hlock
    simp [resolveDownload, hp, hw, hlock, jsTruthy, jsOr, hw0]
  · intro w h hw hw0 hh hh0 hlock
    simp [resolveDownload, hp, hw, hh, hlock, jsTruthy, jsOr, hw0, hh0]
  · intro h hw hh hh0 hlock
    simp [resolveDownload, hp, hw, hh, hlock, jsTruthy, jsOr, hh0]
  · simp only [resolveFinal, hp]
    rw [decide_eq_true_eq]
  · have hval : (resolveDownload 1200 800
        ⟨.custom, some 800, none, true⟩).2 = 1600 / 3 := by
      simp only [resolveDownload, jsTruthy, jsOr]
      norm_num
    rw [hval]
    norm_num [jsRound]

theorem custom_resolution_amended_witness :
    resolveDownload 1200 800 ⟨.custom, some 800, none, true⟩ =
      (800, 800 / (1200 / 800)) ∧
    jsRound ((resolveDownload 1200 800 ⟨.custom, some 800, none, true⟩).2) =
      533 :=
  ⟨(custom_resolution_amended 1200 800 ⟨.custom, some 800, none, true⟩
      (by norm_num) (by norm_num) rfl).1 800 rfl (by norm_num) rfl,
   (custom_resolution_amended 1200 800 ⟨.custom, some 800, none, true⟩
      (by norm_num) (by norm_num) rfl).2.2.2.2⟩

end AIFashion
